import Mathlib

/-!
Verification development for the visa-appointment tracker
(src/visa_tracker.py).  The definitions below are a shallow embedding of
the polling/diffing core: `AppointmentCheckerThread.check_appointments`
(fetch-result processing, filtering, per-key diffing against the scan
history, upsert) and the dispatch part of `VisaTracker.handle_update`
(sorting and the send policy).  External library calls are modelled at
their observable interface: the HTTP body is an already-decoded JSON
value, `datetime.fromisoformat` results are given as instants (seconds
since epoch), and `datetime.strptime`/`strftime` for calendar dates are
implemented concretely below (CPython's strptime matches `%Y` as exactly
four digits and `%m`/`%d` as one or two digits with range checks, then
`datetime` validates the day against the month length).
-/

namespace VisaTracker

/-- A calendar date as produced by `datetime.strptime(s, "%Y-%m-%d")`
(only the fields the program uses). -/
structure Date where
  year : Nat
  month : Nat
  day : Nat
deriving DecidableEq, Repr

/-- Gregorian leap-year test, as used by `datetime` for day validation. -/
def isLeap (y : Nat) : Bool :=
  (y % 4 == 0 && y % 100 != 0) || y % 400 == 0

/-- Number of days in a month, used by `datetime.__new__` validation. -/
def daysInMonth (y m : Nat) : Nat :=
  if m = 2 then (if isLeap y then 29 else 28)
  else if m = 4 ∨ m = 6 ∨ m = 9 ∨ m = 11 then 30
  else 31

/-- Python `str.split(sep)` on a single separator character: always
returns at least one (possibly empty) group. -/
def splitChar (c : Char) : List Char → List (List Char)
  | [] => [[]]
  | x :: xs =>
    if x = c then [] :: splitChar c xs
    else
      match splitChar c xs with
      | [] => [[x]]
      | g :: gs => (x :: g) :: gs

/-- ASCII decimal digit test. -/
def isDigitCh (c : Char) : Bool :=
  48 ≤ c.toNat && c.toNat ≤ 57

/-- Value of a digit string (most significant first). -/
def digitsVal (cs : List Char) : Nat :=
  cs.foldl (fun a c => a * 10 + (c.toNat - 48)) 0

/-- The `strptime` `%Y` field: exactly four digits; `datetime` then rejects
year 0 (`MINYEAR = 1`). -/
def parseYear4 (cs : List Char) : Option Nat :=
  if cs.length = 4 ∧ cs.all isDigitCh then
    let v := digitsVal cs
    if 1 ≤ v then some v else none
  else none

/-- The `strptime` `%m`/`%d` fields: one or two digits, value in `[lo, hi]`
(the CPython regexes reject `0` and `00`). -/
def parseNat2 (cs : List Char) (lo hi : Nat) : Option Nat :=
  if (cs.length = 1 ∨ cs.length = 2) ∧ cs.all isDigitCh then
    let v := digitsVal cs
    if lo ≤ v ∧ v ≤ hi then some v else none
  else none

/-- Model of `datetime.strptime(s, "%Y-%m-%d")`: the pattern must consume the whole
string, and the day must exist in the given month. -/
def strptimeYMD (s : String) : Option Date :=
  match splitChar '-' s.data with
  | [ys, ms, ds] =>
    match parseYear4 ys, parseNat2 ms 1 12, parseNat2 ds 1 31 with
    | some y, some m, some d =>
      if d ≤ daysInMonth y m then some ⟨y, m, d⟩ else none
    | _, _, _ => none
  | _ => none

/-- Model of `s.split('T')[0]`: the part of `s` before the first `T`. -/
def beforeT (s : String) : String :=
  ⟨(splitChar 'T' s.data).headD []⟩

/-- The ASCII digit character for `n % 10`. -/
def digitCh (n : Nat) : Char :=
  Char.ofNat (48 + n % 10)

/-- Two-digit zero-padded decimal rendering (`strftime` `%d`, `%m`). -/
def pad2 (n : Nat) : String :=
  ⟨[digitCh (n / 10), digitCh n]⟩

/-- Four-digit zero-padded decimal rendering (`strftime` `%Y`). -/
def pad4 (n : Nat) : String :=
  ⟨[digitCh (n / 1000), digitCh (n / 100), digitCh (n / 10), digitCh n]⟩

/-- Model of `apt_date.strftime("%d.%m.%Y")`: the display form stored in a
snapshot's `date` field. -/
def formatDMY (d : Date) : String :=
  pad2 d.day ++ "." ++ pad2 d.month ++ "." ++ pad4 d.year

/-- Model of `apt_date.strftime("%Y-%m-%d")`: the ISO form used inside the
appointment key. -/
def formatYMD (d : Date) : String :=
  pad4 d.year ++ "-" ++ pad2 d.month ++ "-" ++ pad2 d.day

/-- Model of `datetime.strptime(s, "%d.%m.%Y")`, the sort key used by
`handle_update` on a snapshot's formatted `date` field. -/
def parseDMY (s : String) : Option Date :=
  match splitChar '.' s.data with
  | [ds, ms, ys] =>
    match parseYear4 ys, parseNat2 ms 1 12, parseNat2 ds 1 31 with
    | some y, some m, some d =>
      if d ≤ daysInMonth y m then some ⟨y, m, d⟩ else none
    | _, _, _ => none
  | _ => none

/-- Order-preserving numeric encoding of a parsed date (month `≤ 12` and
day `≤ 31`, so lexicographic comparison of `(year, month, day)` — which is
how `datetime` objects compare — agrees with this number); an unparseable
string is mapped below every real date (in CPython such a string would
raise inside the sort; it cannot occur for dates the program itself
formatted). -/
def dateKeyStr (s : String) : Nat :=
  match parseDMY s with
  | some d => d.year * 10000 + d.month * 100 + d.day
  | none => 0

/-- A JSON value in one of the three required-field positions of a raw
record.  Other JSON shapes behave like one of these for every operation
the program applies (truthiness, `==` against a settings string,
`.split`): only strings compare equal to the settings strings, and only
strings have `.split`. -/
inductive FieldVal where
  | vStr (s : String)
  | vInt (n : Int)
  | vNull
deriving DecidableEq, Repr

/-- Python truthiness of a field value (empty string, `0` and `None` are
falsy). -/
def truthyF : FieldVal → Bool
  | .vStr s => !s.isEmpty
  | .vInt n => n != 0
  | .vNull => false

/-- Truthiness of `appointment.get(field)`: a missing key yields `None`,
which is falsy. -/
def truthyOpt : Option FieldVal → Bool
  | none => false
  | some v => truthyF v

/-- Python `==` between `appointment.get`-style values and a settings
string: only an equal string compares equal. -/
def fieldEqStr : Option FieldVal → String → Bool
  | some (.vStr s), t => s == t
  | _, _ => false

/-- Python `str(...)` of a field value, as interpolated into the
appointment key f-string (only the string case is reachable there, since
the country filter has already passed). -/
def fieldStr : Option FieldVal → String
  | some (.vStr s) => s
  | some (.vInt n) => toString n
  | some .vNull => "None"
  | none => "None"

/-- A JSON object of the listing, restricted to the fields
`check_appointments` reads.  A `none` stands for both a missing key and a
JSON `null` value, which `dict.get` conflates at every use site below
(the optional text fields default on absence; `people_looking` is
modelled over the integers the upstream API documents).  The
`last_checked` field is given together with its
`datetime.fromisoformat` outcome: `some none` is a present but
unparseable value (`ValueError`/`AttributeError` at line 77 of the
source), `some (some t)` parses to the instant `t` in seconds since the
epoch. -/
structure RawRecord where
  source_country : Option FieldVal
  mission_country : Option FieldVal
  appointment_date : Option FieldVal
  center_name : Option String
  visa_category : Option String
  visa_subcategory : Option String
  people_looking : Option Int
  book_now_link : Option String
  last_checked : Option (Option Int)
deriving DecidableEq, Repr

/-- One element of the decoded payload as seen inside a `for` loop:
a JSON object, or any non-object element (for example a string), which
both loops skip.  An empty object is an `edict` with every field absent;
line 98 skips it for being falsy, line 101 would drop it anyway. -/
inductive Elem where
  | edict (r : RawRecord)
  | other
deriving DecidableEq, Repr

/-- The normalized snapshot dict built at lines 109-116 of the source and
stored in `scan_history['appointments']`; `people_looking_change` is the
key optionally added at line 124 (the stored copy keeps it, since the
same dict object is stored). -/
structure AppointmentInfo where
  date : String
  center : String
  visa_category : String
  visa_subcategory : String
  people_looking : Int
  link : String
  people_looking_change : Option Int
deriving DecidableEq, Repr

/-- The persisted scan history (`scan_history.json` contents held in
memory).  `last_scan`: `none` is a missing key, `some none` a JSON
`null` (the state `load_scan_history` seeds), `some (some s)` a stored
time string.  `appointments` is the JSON object as an association list
with at most one entry per key (insertion overwrites in place). -/
structure ScanHistory where
  last_scan : Option (Option String)
  appointments : List (String × AppointmentInfo)
deriving DecidableEq, Repr

/-- The slice of the settings dict the modelled core reads. -/
structure Settings where
  source_country : String
  mission_country : String
  send_all_updates : Bool
deriving DecidableEq, Repr

/-- The result dict emitted through `update_signal` (lines 89-95).
`api_last_checked` carries the UTC+3 wall-clock instant that
`strftime('%d.%m.%Y - %H:%M:%S')` renders (the rendering is injective at
the modelled one-second granularity); `error` is always `None` on this
path. -/
structure PollResult where
  current_time : String
  last_check : Option String
  api_last_checked : Option Int
  appointments : List AppointmentInfo
  error : Option String
deriving DecidableEq, Repr

/-- Dict lookup in the history's `appointments` object. -/
def lookupA (m : List (String × AppointmentInfo)) (k : String) : Option AppointmentInfo :=
  match m with
  | [] => none
  | (k', v') :: rest => if k' = k then some v' else lookupA rest k

/-- Dict assignment `m[k] = v`: overwrite in place, or append a new
entry. -/
def insertA (m : List (String × AppointmentInfo)) (k : String) (v : AppointmentInfo) :
    List (String × AppointmentInfo) :=
  match m with
  | [] => [(k, v)]
  | (k', v') :: rest => if k' = k then (k, v) :: rest else (k', v') :: insertA rest k v

/-- Lines 101-102: `all(appointment.get(field) for field in [...])`; the
check is on truthiness of the three required values. -/
def requiredTruthy (r : RawRecord) : Bool :=
  truthyOpt r.source_country && truthyOpt r.mission_country && truthyOpt r.appointment_date

/-- Line 106: strip anything from the first `T` on, then
`strptime("%Y-%m-%d")`.  A non-string value raises `AttributeError` at
`.split`, caught at line 130. -/
def parseRecordDate (r : RawRecord) : Option Date :=
  match r.appointment_date with
  | some (.vStr s) => strptimeYMD (beforeT s)
  | _ => none

/-- The gate a record must pass to contribute a snapshot: the required
fields are truthy (line 101), the country pair equals the settings pair
(line 104), and the appointment date parses (line 106); the surviving
record's parsed date is returned. -/
def survInfo (st : Settings) (r : RawRecord) : Option Date :=
  if requiredTruthy r then
    if fieldEqStr r.source_country st.source_country &&
        fieldEqStr r.mission_country st.mission_country then
      parseRecordDate r
    else none
  else none

/-- Lines 109-116: the normalized snapshot dict, with placeholder
defaults for the optional fields. -/
def buildInfo (r : RawRecord) (d : Date) : AppointmentInfo :=
  { date := formatDMY d
    center := r.center_name.getD "Belirtilmemiş"
    visa_category := r.visa_category.getD "Belirtilmemiş"
    visa_subcategory := r.visa_subcategory.getD "Belirtilmemiş"
    people_looking := r.people_looking.getD 0
    link := r.book_now_link.getD "#"
    people_looking_change := none }

/-- Line 118: the appointment key f-string
`f"{source}_{mission}_{iso-date}"`. -/
def keyString (r : RawRecord) (d : Date) : String :=
  fieldStr r.source_country ++ "_" ++ fieldStr r.mission_country ++ "_" ++ formatYMD d

/-- Lines 120-124: the snapshot that goes out and into the store —
`buildInfo`, with `people_looking_change` attached when the key already
exists and its stored count differs. -/
def diffInfo (h : ScanHistory) (r : RawRecord) (d : Date) : AppointmentInfo :=
  let info0 := buildInfo r d
  match lookupA h.appointments (keyString r d) with
  | some prev =>
    if prev.people_looking != info0.people_looking then
      { info0 with
          people_looking_change := some (info0.people_looking - prev.people_looking) }
    else info0
  | none => info0

/-- Lines 97-128 for one loop element: skip non-dicts and records failing
the gate; otherwise diff against the history entry for the key, store the
new snapshot (line 126) and append the same dict to the outgoing list
(line 128).  The accumulator is (history, output list so far). -/
def stepElem (st : Settings) (acc : ScanHistory × List AppointmentInfo) (e : Elem) :
    ScanHistory × List AppointmentInfo :=
  match e with
  | .other => acc
  | .edict r =>
    match survInfo st r with
    | none => acc
    | some d =>
      let info := diffInfo acc.1 r d
      ({ acc.1 with appointments := insertA acc.1.appointments (keyString r d) info },
       acc.2 ++ [info])

/-- The whole record loop of one cycle, threading the history. -/
def processAll (st : Settings) (hist : ScanHistory) (elems : List Elem) :
    ScanHistory × List AppointmentInfo :=
  elems.foldl (stepElem st) (hist, [])

/-- The parseable `last_checked` instant a loop element contributes to
the freshness scan at lines 74-82, if any. -/
def elemTime : Elem → Option Int
  | .edict r =>
    match r.last_checked with
    | some (some t) => some t
    | _ => none
  | .other => none

/-- One iteration of the freshness scan at lines 74-82: an element
without a parseable instant leaves the running value alone (missing key,
non-dict, or a parse failure logged at line 81); otherwise the strict
`api_time > latest_update` keeps the larger instant (an equal later
value keeps the earlier one — same maximum). -/
def latestStep (acc : Option Int) (e : Elem) : Option Int :=
  match elemTime e with
  | none => acc
  | some t =>
    match acc with
    | none => some t
    | some m => if t > m then some t else some m

/-- Lines 74-82: running maximum of the parseable per-record
`last_checked` instants over the whole loop. -/
def latestUpdate (elems : List Elem) : Option Int :=
  elems.foldl latestStep none

/-- The decoded response body (`response.json()`), or `notJson` when
decoding raises.  An object is iterated as its keys, a string as its
characters — both yield only non-dict elements; numbers, booleans and
`null` are not iterable. -/
inductive JsonTop where
  | jlist (elems : List Elem)
  | jobject (keys : List String)
  | jstring (s : String)
  | jnumber
  | jbool
  | jnull
  | notJson
deriving DecidableEq, Repr

/-- What `for appointment in data:` at line 97 iterates over, or `none`
when it raises `TypeError` (or when `response.json()` already raised). -/
def iterElems : JsonTop → Option (List Elem)
  | .jlist elems => some elems
  | .jobject keys => some (keys.map fun _ => Elem.other)
  | .jstring s => some (s.data.map fun _ => Elem.other)
  | .jnumber => none
  | .jbool => none
  | .jnull => none
  | .notJson => none

/-- Lines 68-87: the freshness scan runs only under
`if data and isinstance(data, list)` and shifts the maximum to the fixed
UTC+3 display offset. -/
def apiLastChecked : JsonTop → Option Int
  | .jlist elems =>
    if elems.isEmpty then none
    else (latestUpdate elems).map (· + 3 * 60 * 60)
  | _ => none

/-- Line 66: `scan_history.get('last_scan', 'İlk Kontrol')` (a present
JSON `null` yields Python `None`, not the default). -/
def lastScanDisplay (hist : ScanHistory) : Option String :=
  match hist.last_scan with
  | none => some "İlk Kontrol"
  | some v => v

/-- Model of `check_appointments` (lines 57-146) on one fetched body: returns the
history after the cycle and either the result dict emitted through
`update_signal` or the error string emitted through `error_signal`
(the placeholder `"exception"` stands for `str(e)`: a decode error for a
non-JSON body, a `TypeError` for a non-iterable one; nothing depends on
its text).  On the success path line 135 overwrites `last_scan` with the
current time after the loop (the file save at lines 136-140 persists the
same in-memory state and failures there are only logged). -/
def checkAppointments (st : Settings) (hist : ScanHistory) (now : String) (p : JsonTop) :
    ScanHistory × Except String PollResult :=
  match iterElems p with
  | none => (hist, .error "exception")
  | some elems =>
    let res := processAll st hist elems
    ({ res.1 with last_scan := some (some now) },
     .ok { current_time := now
           last_check := lastScanDisplay hist
           api_last_checked := apiLastChecked p
           appointments := res.2
           error := none })

/-- The appointment list of a successful cycle (empty on the error
path, where no result dict exists). -/
def pollAppointments : Except String PollResult → List AppointmentInfo
  | .ok r => r.appointments
  | .error _ => []

/-- A snapshot with its report-only `people_looking_change` removed. -/
def baseOf (i : AppointmentInfo) : AppointmentInfo :=
  { i with people_looking_change := none }

/-- Whether processing the element writes the history key `k`. -/
def touchesKey (st : Settings) (e : Elem) (k : String) : Bool :=
  match e with
  | .other => false
  | .edict r =>
    match survInfo st r with
    | none => false
    | some d => keyString r d == k

/-- The history keys written by a cycle over `elems`, in order. -/
def cycleKeys (st : Settings) (elems : List Elem) : List String :=
  elems.filterMap fun e =>
    match e with
    | .edict r => (survInfo st r).map (keyString r)
    | .other => none

/-- The comparison `handle_update` sorts by at line 574: ascending
`strptime("%d.%m.%Y")` of the snapshot's formatted date. -/
def aptLE (a b : AppointmentInfo) : Prop :=
  dateKeyStr a.date ≤ dateKeyStr b.date

instance : DecidableRel aptLE :=
  fun _ _ => Nat.decLe _ _

instance : IsTotal AppointmentInfo aptLE :=
  ⟨fun _ _ => Nat.le_total _ _⟩

instance : IsTrans AppointmentInfo aptLE :=
  ⟨fun _ _ _ => Nat.le_trans⟩

/-- The in-place `result['appointments'].sort(key=...)` at line 574.
Python's sort is stable, and a stable sort under a total transitive
comparison has a unique output, so the stable `insertionSort` computes
the same list. -/
def sortAppointments (l : List AppointmentInfo) : List AppointmentInfo :=
  List.insertionSort aptLE l

/-- Python rendering of an optional string inside an f-string
(`str(None)` is `"None"`). -/
def displayOpt (o : Option String) : String :=
  o.getD "None"

/-- Stands for the `strftime('%d.%m.%Y - %H:%M:%S')` rendering of the
UTC+3 instant in the API-freshness line; the rendering is injective at
the modelled one-second granularity and its exact glyphs are irrelevant
to every claim. -/
def fmtApiTime (t : Int) : String :=
  toString t

/-- Lines 560-570: the report header built for every successful update
(the API-freshness line is appended only when the value is truthy, that
is, present). -/
def statusHeader (st : Settings) (r : PollResult) : String :=
  "🔄 Randevu Kontrol Raporu\n" ++
  "🌍 " ++ st.source_country ++ " ➡️ " ++ st.mission_country ++ "\n" ++
  "⏰ Kontrol Zamanı: " ++ r.current_time ++ "\n" ++
  "📤 Son Mesaj: " ++ displayOpt r.last_check ++ "\n" ++
  (match r.api_last_checked with
   | some t => "🔄 API Son Güncelleme: " ++ fmtApiTime t ++ "\n"
   | none => "") ++
  "\n"

/-- Line 581: signed rendering of the delta (`'+' if change > 0 else ''`
followed by `str(change)`). -/
def fmtChange (c : Int) : String :=
  (if c > 0 then "+" else "") ++ toString c

/-- Lines 578-581: the people-looking line, with the delta appended when
the report-only key is present. -/
def peopleLine (a : AppointmentInfo) : String :=
  "👥 Bekleyen Kişi: " ++ toString a.people_looking ++
  (match a.people_looking_change with
   | some c => " (" ++ fmtChange c ++ " değişim)"
   | none => "")

/-- Lines 583-590: one per-appointment block of the report. -/
def appointmentBlock (a : AppointmentInfo) : String :=
  "📅 Tarih: " ++ a.date ++ "\n" ++
  "🏢 Merkez: " ++ a.center ++ "\n" ++
  "📋 Vize Tipi: " ++ a.visa_category ++ "\n" ++
  "📝 Alt Kategori: " ++ a.visa_subcategory ++ "\n" ++
  peopleLine a ++ "\n" ++
  "🔗 <a href=\x27" ++ a.link ++ "\x27>Randevu Linki</a>\n\n"

/-- Line 594: the footer used when the filtered list is empty. -/
def noAppointmentsFooter : String :=
  "❌ Şu anda uygun randevu bulunmamaktadır."

/-- Lines 572-596 of `handle_update`, reduced to its dispatch decision:
the texts handed to `send_telegram_message`, in order.  A non-empty list
is sorted, rendered and always sent; an empty list sends the footer
message only under `send_all_updates`. -/
def handleUpdateMessages (st : Settings) (r : PollResult) : List String :=
  let header := statusHeader st r
  if r.appointments ≠ [] then
    [header ++ "📅 Mevcut Randevular (" ++ toString r.appointments.length ++ "):\n\n" ++
      String.join ((sortAppointments r.appointments).map appointmentBlock)]
  else if st.send_all_updates then
    [header ++ noAppointmentsFooter]
  else
    []

/-! Concrete fixtures used by witnesses and counterexamples. -/

/-- A sample settings selection (Turkey → Germany, notify every cycle). -/
def sampleSettings : Settings :=
  { source_country := "Turkey", mission_country := "Germany", send_all_updates := true }

/-- The scan history `load_scan_history` seeds on first run. -/
def emptyHistory : ScanHistory :=
  { last_scan := some none, appointments := [] }

/-- A well-formed matching record with the given date string and
people-looking count. -/
def sampleRecord (datestr : String) (pl : Int) : RawRecord :=
  { source_country := some (.vStr "Turkey")
    mission_country := some (.vStr "Germany")
    appointment_date := some (.vStr datestr)
    center_name := some "Ankara"
    visa_category := some "Schengen"
    visa_subcategory := some "Tourism"
    people_looking := some pl
    book_now_link := some "https://example.com"
    last_checked := none }

/-- The snapshot a first sighting of `sampleRecord "2024-05-01" 12`
stores. -/
def sampleStored : AppointmentInfo :=
  { date := "01.05.2024"
    center := "Ankara"
    visa_category := "Schengen"
    visa_subcategory := "Tourism"
    people_looking := 12
    link := "https://example.com"
    people_looking_change := none }

/-- A history that already holds `sampleStored` under its key. -/
def sampleHistory : ScanHistory :=
  { last_scan := some none
    appointments := [("Turkey_Germany_2024-05-01", sampleStored)] }

/-! Helper lemmas about the embedded operations. -/

theorem lookupA_insertA_self (m : List (String × AppointmentInfo)) (k : String)
    (v : AppointmentInfo) : lookupA (insertA m k v) k = some v := by
  induction m with
  | nil => simp [insertA, lookupA]
  | cons p rest ih =>
    obtain ⟨k', v'⟩ := p
    by_cases h : k' = k
    · simp [insertA, h, lookupA]
    · simp [insertA, h, lookupA, ih]

theorem lookupA_insertA_ne (m : List (String × AppointmentInfo)) (k : String)
    (v : AppointmentInfo) (k' : String) (h : k' ≠ k) :
    lookupA (insertA m k v) k' = lookupA m k' := by
  induction m with
  | nil =>
    simp only [insertA, lookupA]
    rw [if_neg fun he => h he.symm]
  | cons p rest ih =>
    obtain ⟨k0, v0⟩ := p
    simp only [insertA]
    by_cases h0 : k0 = k
    · subst h0
      simp only [if_pos rfl, lookupA]
      rw [if_neg fun he => h he.symm, if_neg fun he => h he.symm]
    · rw [if_neg h0]
      simp only [lookupA]
      by_cases h1 : k0 = k'
      · rw [if_pos h1, if_pos h1]
      · rw [if_neg h1, if_neg h1, ih]

theorem fieldEqStr_eq {o : Option FieldVal} {t : String} (h : fieldEqStr o t = true) :
    o = some (FieldVal.vStr t) := by
  cases o with
  | none => simp [fieldEqStr] at h
  | some v =>
    cases v with
    | vStr s => simp [fieldEqStr] at h; subst h; rfl
    | vInt n => simp [fieldEqStr] at h
    | vNull => simp [fieldEqStr] at h

theorem survInfo_eq_some {st : Settings} {r : RawRecord} {d : Date}
    (h : survInfo st r = some d) :
    requiredTruthy r = true ∧
    r.source_country = some (FieldVal.vStr st.source_country) ∧
    r.mission_country = some (FieldVal.vStr st.mission_country) ∧
    parseRecordDate r = some d := by
  unfold survInfo at h
  by_cases h1 : requiredTruthy r = true
  · rw [if_pos h1] at h
    by_cases h2 : (fieldEqStr r.source_country st.source_country &&
        fieldEqStr r.mission_country st.mission_country) = true
    · rw [if_pos h2] at h
      rw [Bool.and_eq_true] at h2
      exact ⟨h1, fieldEqStr_eq h2.1, fieldEqStr_eq h2.2, h⟩
    · rw [if_neg h2] at h
      cases h
  · rw [if_neg h1] at h
    cases h

theorem baseOf_buildInfo (r : RawRecord) (d : Date) :
    baseOf (buildInfo r d) = buildInfo r d := rfl

theorem baseOf_diffInfo (h : ScanHistory) (r : RawRecord) (d : Date) :
    baseOf (diffInfo h r d) = buildInfo r d := by
  cases hl : lookupA h.appointments (keyString r d) with
  | none => simp only [diffInfo, hl]; rfl
  | some prev =>
    simp only [diffInfo, hl]
    by_cases hc : (prev.people_looking != (buildInfo r d).people_looking) = true
    · rw [if_pos hc]; rfl
    · rw [if_neg hc]; rfl

theorem people_looking_diffInfo (h : ScanHistory) (r : RawRecord) (d : Date) :
    (diffInfo h r d).people_looking = r.people_looking.getD 0 := by
  cases hl : lookupA h.appointments (keyString r d) with
  | none => simp only [diffInfo, hl]; rfl
  | some prev =>
    simp only [diffInfo, hl]
    by_cases hc : (prev.people_looking != (buildInfo r d).people_looking) = true
    · rw [if_pos hc]; rfl
    · rw [if_neg hc]; rfl

theorem diffInfo_of_eq (h : ScanHistory) (r : RawRecord) (d : Date)
    (prev : AppointmentInfo)
    (hl : lookupA h.appointments (keyString r d) = some prev)
    (he : prev.people_looking = (buildInfo r d).people_looking) :
    diffInfo h r d = buildInfo r d := by
  have hb : (prev.people_looking != (buildInfo r d).people_looking) = false := by
    rw [he]; exact bne_self_eq_false _
  simp only [diffInfo, hl, hb]
  rfl

theorem diffInfo_of_ne (h : ScanHistory) (r : RawRecord) (d : Date)
    (prev : AppointmentInfo)
    (hl : lookupA h.appointments (keyString r d) = some prev)
    (he : prev.people_looking ≠ (buildInfo r d).people_looking) :
    diffInfo h r d =
      { buildInfo r d with
          people_looking_change :=
            some ((buildInfo r d).people_looking - prev.people_looking) } := by
  have hb : (prev.people_looking != (buildInfo r d).people_looking) = true :=
    bne_iff_ne.mpr he
  simp only [diffInfo, hl, hb]
  rfl

theorem stepElem_other_eq (st : Settings) (acc : ScanHistory × List AppointmentInfo) :
    stepElem st acc Elem.other = acc := rfl

theorem stepElem_no_surv {st : Settings} {r : RawRecord}
    (acc : ScanHistory × List AppointmentInfo) (h : survInfo st r = none) :
    stepElem st acc (Elem.edict r) = acc := by
  simp [stepElem, h]

theorem stepElem_surv {st : Settings} {r : RawRecord} {d : Date}
    (acc : ScanHistory × List AppointmentInfo) (h : survInfo st r = some d) :
    stepElem st acc (Elem.edict r) =
      ({ acc.1 with
          appointments := insertA acc.1.appointments (keyString r d) (diffInfo acc.1 r d) },
       acc.2 ++ [diffInfo acc.1 r d]) := by
  simp [stepElem, h]

theorem stepElem_out_extend (st : Settings) (acc : ScanHistory × List AppointmentInfo)
    (e : Elem) : ∃ t, (stepElem st acc e).2 = acc.2 ++ t := by
  cases e with
  | other => exact ⟨[], by simp [stepElem_other_eq]⟩
  | edict r =>
    cases h : survInfo st r with
    | none => exact ⟨[], by simp [stepElem_no_surv acc h]⟩
    | some d => exact ⟨[diffInfo acc.1 r d], by rw [stepElem_surv acc h]⟩

theorem mem_foldl_out (st : Settings) (l : List Elem)
    (acc : ScanHistory × List AppointmentInfo) (i : AppointmentInfo)
    (h : i ∈ acc.2) : i ∈ (List.foldl (stepElem st) acc l).2 := by
  induction l generalizing acc with
  | nil => exact h
  | cons e rest ih =>
    rw [List.foldl_cons]
    apply ih
    obtain ⟨t, ht⟩ := stepElem_out_extend st acc e
    rw [ht]
    exact List.mem_append_left _ h

theorem lookupA_stepElem_untouched (st : Settings)
    (acc : ScanHistory × List AppointmentInfo) (e : Elem) (k : String)
    (h : touchesKey st e k = false) :
    lookupA (stepElem st acc e).1.appointments k = lookupA acc.1.appointments k := by
  cases e with
  | other => rfl
  | edict r =>
    cases hs : survInfo st r with
    | none => rw [stepElem_no_surv acc hs]
    | some d =>
      have hk : keyString r d ≠ k := by
        intro hkk
        rw [touchesKey, hs] at h
        simp only [hkk] at h
        simp at h
      rw [stepElem_surv acc hs]
      exact lookupA_insertA_ne _ _ _ _ fun he => hk he.symm

theorem lookupA_foldl_untouched (st : Settings) (l : List Elem) (k : String)
    (h : ∀ e ∈ l, touchesKey st e k = false)
    (acc : ScanHistory × List AppointmentInfo) :
    lookupA (List.foldl (stepElem st) acc l).1.appointments k =
      lookupA acc.1.appointments k := by
  induction l generalizing acc with
  | nil => rfl
  | cons e rest ih =>
    rw [List.foldl_cons, ih fun e' he' => h e' (List.mem_cons_of_mem _ he'),
      lookupA_stepElem_untouched st acc e k (h e (List.mem_cons_self _ _))]

theorem foldl_out_provenance (st : Settings) (l : List Elem)
    (acc : ScanHistory × List AppointmentInfo) (i : AppointmentInfo)
    (hi : i ∈ (List.foldl (stepElem st) acc l).2) :
    i ∈ acc.2 ∨
      ∃ r d, Elem.edict r ∈ l ∧ survInfo st r = some d ∧ baseOf i = buildInfo r d := by
  induction l generalizing acc with
  | nil => exact Or.inl hi
  | cons e rest ih =>
    rw [List.foldl_cons] at hi
    rcases ih (stepElem st acc e) hi with h1 | ⟨r, d, hmem, hs, hb⟩
    · cases e with
      | other => exact Or.inl h1
      | edict r =>
        cases hs : survInfo st r with
        | none =>
          rw [stepElem_no_surv acc hs] at h1
          exact Or.inl h1
        | some d =>
          rw [stepElem_surv acc hs] at h1
          rcases List.mem_append.mp h1 with h2 | h2
          · exact Or.inl h2
          · rcases List.mem_singleton.mp h2 with rfl
            exact Or.inr ⟨r, d, List.mem_cons_self _ _, hs, baseOf_diffInfo acc.1 r d⟩
    · exact Or.inr ⟨r, d, List.mem_cons_of_mem _ hmem, hs, hb⟩

theorem cycleKeys_cons_other (st : Settings) (rest : List Elem) :
    cycleKeys st (Elem.other :: rest) = cycleKeys st rest := by
  simp [cycleKeys]

theorem cycleKeys_cons_no_surv {st : Settings} {r : RawRecord} (rest : List Elem)
    (h : survInfo st r = none) :
    cycleKeys st (Elem.edict r :: rest) = cycleKeys st rest := by
  simp [cycleKeys, h]

theorem cycleKeys_cons_surv {st : Settings} {r : RawRecord} {d : Date} (rest : List Elem)
    (h : survInfo st r = some d) :
    cycleKeys st (Elem.edict r :: rest) = keyString r d :: cycleKeys st rest := by
  simp [cycleKeys, h]

theorem mem_cycleKeys_of_touches (st : Settings) (e : Elem) (k : String) (l : List Elem)
    (he : e ∈ l) (ht : touchesKey st e k = true) : k ∈ cycleKeys st l := by
  cases e with
  | other => simp [touchesKey] at ht
  | edict r =>
    cases hs : survInfo st r with
    | none => simp [touchesKey, hs] at ht
    | some d =>
      have hk : keyString r d = k := by simpa [touchesKey, hs] using ht
      exact List.mem_filterMap.mpr ⟨Elem.edict r, he, by simp [hs, hk]⟩

theorem not_touches_of_not_mem (st : Settings) (l : List Elem) (k : String)
    (hk : k ∉ cycleKeys st l) : ∀ e ∈ l, touchesKey st e k = false := by
  intro e he
  by_contra hb
  exact hk (mem_cycleKeys_of_touches st e k l he (by simpa using hb))

theorem foldl_writes_key (st : Settings) (l : List Elem) :
    ∀ (acc : ScanHistory × List AppointmentInfo),
      (cycleKeys st l).Nodup →
      ∀ (r : RawRecord) (d : Date), Elem.edict r ∈ l → survInfo st r = some d →
        ∃ v, lookupA (List.foldl (stepElem st) acc l).1.appointments (keyString r d) =
              some v ∧
          v.people_looking = r.people_looking.getD 0 := by
  induction l with
  | nil =>
    intro acc _ r d hmem _
    cases hmem
  | cons e rest ih =>
    intro acc hnd r d hmem hs
    rw [List.foldl_cons]
    rcases List.mem_cons.mp hmem with he | he
    · subst he
      rw [cycleKeys_cons_surv rest hs] at hnd
      have hk : keyString r d ∉ cycleKeys st rest := (List.nodup_cons.mp hnd).1
      rw [lookupA_foldl_untouched st rest _ (not_touches_of_not_mem st rest _ hk),
        stepElem_surv acc hs]
      exact ⟨diffInfo acc.1 r d, by simp [lookupA_insertA_self],
        people_looking_diffInfo acc.1 r d⟩
    · have hnd' : (cycleKeys st rest).Nodup := by
        cases e with
        | other => rw [cycleKeys_cons_other] at hnd; exact hnd
        | edict r0 =>
          cases hs0 : survInfo st r0 with
          | none => rw [cycleKeys_cons_no_surv rest hs0] at hnd; exact hnd
          | some d0 =>
            rw [cycleKeys_cons_surv rest hs0] at hnd
            exact (List.nodup_cons.mp hnd).2
      exact ih (stepElem st acc e) hnd' r d he hs

theorem foldl_nochange (st : Settings) (l : List Elem) :
    ∀ (acc : ScanHistory × List AppointmentInfo),
      (cycleKeys st l).Nodup →
      (∀ i ∈ acc.2, i.people_looking_change = none) →
      (∀ (r : RawRecord) (d : Date), Elem.edict r ∈ l → survInfo st r = some d →
        ∃ v, lookupA acc.1.appointments (keyString r d) = some v ∧
          v.people_looking = r.people_looking.getD 0) →
      ∀ i ∈ (List.foldl (stepElem st) acc l).2, i.people_looking_change = none := by
  induction l with
  | nil =>
    intro acc _ hacc _ i hi
    exact hacc i hi
  | cons e rest ih =>
    intro acc hnd hacc hh i hi
    rw [List.foldl_cons] at hi
    cases e with
    | other =>
      refine ih (stepElem st acc Elem.other) ?_ ?_ ?_ i hi
      · rw [cycleKeys_cons_other] at hnd; exact hnd
      · rw [stepElem_other_eq]; exact hacc
      · intro r d hm hs
        rw [stepElem_other_eq]
        exact hh r d (List.mem_cons_of_mem _ hm) hs
    | edict r0 =>
      cases hs0 : survInfo st r0 with
      | none =>
        refine ih (stepElem st acc (Elem.edict r0)) ?_ ?_ ?_ i hi
        · rw [cycleKeys_cons_no_surv rest hs0] at hnd; exact hnd
        · rw [stepElem_no_surv acc hs0]; exact hacc
        · intro r d hm hs
          rw [stepElem_no_surv acc hs0]
          exact hh r d (List.mem_cons_of_mem _ hm) hs
      | some d0 =>
        rw [cycleKeys_cons_surv rest hs0] at hnd
        obtain ⟨hk0, hnd'⟩ := List.nodup_cons.mp hnd
        obtain ⟨v, hv, hvp⟩ := hh r0 d0 (List.mem_cons_self _ _) hs0
        have hplain : diffInfo acc.1 r0 d0 = buildInfo r0 d0 :=
          diffInfo_of_eq acc.1 r0 d0 v hv (by rw [hvp]; rfl)
        refine ih (stepElem st acc (Elem.edict r0)) hnd' ?_ ?_ i hi
        · intro j hj
          rw [stepElem_surv acc hs0] at hj
          rcases List.mem_append.mp hj with hj | hj
          · exact hacc j hj
          · rcases List.mem_singleton.mp hj with rfl
            rw [hplain]
            rfl
        · intro r d hm hs
          rw [stepElem_surv acc hs0]
          have hkne : keyString r d ≠ keyString r0 d0 := by
            intro hkk
            apply hk0
            rw [← hkk]
            exact mem_cycleKeys_of_touches st (Elem.edict r) (keyString r d) rest hm
              (by simp [touchesKey, hs])
          dsimp only
          rw [lookupA_insertA_ne _ _ _ _ hkne]
          exact hh r d (List.mem_cons_of_mem _ hm) hs

theorem checkAppointments_jlist (st : Settings) (hist : ScanHistory) (now : String)
    (elems : List Elem) :
    checkAppointments st hist now (JsonTop.jlist elems) =
      ({ (processAll st hist elems).1 with last_scan := some (some now) },
       .ok { current_time := now
             last_check := lastScanDisplay hist
             api_last_checked := apiLastChecked (JsonTop.jlist elems)
             appointments := (processAll st hist elems).2
             error := none }) := rfl

theorem foldl_others (st : Settings) (l : List Elem) :
    (∀ e ∈ l, e = Elem.other) →
      ∀ acc : ScanHistory × List AppointmentInfo, List.foldl (stepElem st) acc l = acc := by
  induction l with
  | nil =>
    intro _ acc
    rfl
  | cons e rest ih =>
    intro h acc
    rw [List.foldl_cons, h e (List.mem_cons_self _ _), stepElem_other_eq]
    exact ih (fun e' he' => h e' (List.mem_cons_of_mem _ he')) acc

theorem latestStep_of_none {e : Elem} (acc : Option Int) (h : elemTime e = none) :
    latestStep acc e = acc := by
  simp [latestStep, h]

theorem latestStep_none_of_some {e : Elem} {t : Int} (h : elemTime e = some t) :
    latestStep none e = some t := by
  simp [latestStep, h]

theorem latestStep_some_of_some {e : Elem} {t : Int} (m : Int) (h : elemTime e = some t) :
    latestStep (some m) e = some (max m t) := by
  simp only [latestStep, h]
  rcases le_or_lt t m with h' | h'
  · rw [if_neg (not_lt.mpr h'), max_eq_left h']
  · rw [if_pos h', max_eq_right h'.le]

theorem foldl_latestStep_some (l : List Elem) :
    ∀ m : Int,
      List.foldl latestStep (some m) l = some ((l.filterMap elemTime).foldl max m) := by
  induction l with
  | nil =>
    intro m
    rfl
  | cons e rest ih =>
    intro m
    rw [List.foldl_cons]
    cases he : elemTime e with
    | none => rw [latestStep_of_none _ he, ih m, List.filterMap_cons_none he]
    | some t =>
      rw [latestStep_some_of_some m he, ih (max m t), List.filterMap_cons_some he,
        List.foldl_cons]

theorem latestUpdate_eq_max (elems : List Elem) :
    latestUpdate elems = (elems.filterMap elemTime).max? := by
  unfold latestUpdate
  induction elems with
  | nil => rfl
  | cons e rest ih =>
    rw [List.foldl_cons]
    cases he : elemTime e with
    | none => rw [latestStep_of_none _ he, ih, List.filterMap_cons_none he]
    | some t =>
      rw [latestStep_none_of_some he, foldl_latestStep_some rest t,
        List.filterMap_cons_some he]
      rfl

theorem checkAppointments_iter_others (st : Settings) (hist : ScanHistory) (now : String)
    (p : JsonTop) (elems : List Elem)
    (hp : iterElems p = some elems) (helems : ∀ e ∈ elems, e = Elem.other) :
    checkAppointments st hist now p =
      ({ hist with last_scan := some (some now) },
       .ok { current_time := now
             last_check := lastScanDisplay hist
             api_last_checked := apiLastChecked p
             appointments := []
             error := none }) := by
  simp only [checkAppointments, hp]
  rw [show processAll st hist elems = (hist, []) from foldl_others st elems helems _]

/-! Claim theorems. -/

/-- C1: for every raw listing and settings selection, each snapshot in
the cycle's output appointment list stems from a listing record whose
`source_country` equals `settings.source_country` and whose
`mission_country` equals `settings.mission_country` (filter correctness
for all inputs); the snapshot is that record's normalized form, up to
the report-only delta annotation. -/
theorem c1_filter_correct (st : Settings) (hist : ScanHistory) (now : String)
    (elems : List Elem) (i : AppointmentInfo)
    (hi : i ∈ pollAppointments (checkAppointments st hist now (JsonTop.jlist elems)).2) :
    ∃ r d, Elem.edict r ∈ elems ∧
      r.source_country = some (FieldVal.vStr st.source_country) ∧
      r.mission_country = some (FieldVal.vStr st.mission_country) ∧
      baseOf i = buildInfo r d := by
  rw [checkAppointments_jlist] at hi
  have hi' : i ∈ (processAll st hist elems).2 := hi
  rcases foldl_out_provenance st elems (hist, []) i hi' with h | ⟨r, d, hm, hs, hb⟩
  · cases h
  · obtain ⟨_, hsrc, hmis, _⟩ := survInfo_eq_some hs
    exact ⟨r, d, hm, hsrc, hmis, hb⟩

/-- Witness for C1 at a one-record listing. -/
theorem c1_filter_correct_witness :
    ∃ r d, Elem.edict r ∈ [Elem.edict (sampleRecord "2024-05-01" 12)] ∧
      r.source_country = some (FieldVal.vStr sampleSettings.source_country) ∧
      r.mission_country = some (FieldVal.vStr sampleSettings.mission_country) ∧
      baseOf sampleStored = buildInfo r d :=
  c1_filter_correct sampleSettings emptyHistory "t"
    [Elem.edict (sampleRecord "2024-05-01" 12)] sampleStored (by decide)

/-- C4: a record missing any of the required fields `source_country`,
`mission_country`, `appointment_date` never appears in the cycle's
output list and never enters the store: the cycle's (history, output)
pair is the same as if the record were absent, at any position. -/
theorem c4_missing_required_dropped (st : Settings) (hist : ScanHistory)
    (pre post : List Elem) (r : RawRecord)
    (h : r.source_country = none ∨ r.mission_country = none ∨
      r.appointment_date = none) :
    processAll st hist (pre ++ Elem.edict r :: post) =
      processAll st hist (pre ++ post) := by
  have hreq : requiredTruthy r = false := by
    rcases h with h | h | h <;> simp [requiredTruthy, h, truthyOpt]
  have hs : survInfo st r = none := by
    simp [survInfo, hreq]
  unfold processAll
  rw [List.foldl_append, List.foldl_append, List.foldl_cons, stepElem_no_surv _ hs]

/-- Witness for C4: a record lacking `appointment_date`, spliced into the
middle of a listing, changes nothing. -/
theorem c4_missing_required_dropped_witness :
    processAll sampleSettings emptyHistory
        ([Elem.edict (sampleRecord "2024-05-01" 12)] ++
          Elem.edict { sampleRecord "2024-05-02" 3 with appointment_date := none } ::
            [Elem.other]) =
      processAll sampleSettings emptyHistory
        ([Elem.edict (sampleRecord "2024-05-01" 12)] ++ [Elem.other]) :=
  c4_missing_required_dropped sampleSettings emptyHistory
    [Elem.edict (sampleRecord "2024-05-01" 12)] [Elem.other]
    { sampleRecord "2024-05-02" 3 with appointment_date := none }
    (Or.inr (Or.inr rfl))

/-- C10: a required field that is present but falsy (empty string, `0`,
or `null`) is dropped exactly like a missing field — the check at line
101 tests truthiness, not key presence — so the record contributes
nothing to the output list or the store, at any position. -/
theorem c10_falsy_required_dropped (st : Settings) (hist : ScanHistory)
    (pre post : List Elem) (r : RawRecord) (fv : FieldVal)
    (h : (r.source_country = some fv ∨ r.mission_country = some fv ∨
        r.appointment_date = some fv) ∧ truthyF fv = false) :
    processAll st hist (pre ++ Elem.edict r :: post) =
      processAll st hist (pre ++ post) := by
  obtain ⟨hf, hfv⟩ := h
  have hreq : requiredTruthy r = false := by
    rcases hf with hf | hf | hf <;> simp [requiredTruthy, hf, truthyOpt, hfv]
  have hs : survInfo st r = none := by
    simp [survInfo, hreq]
  unfold processAll
  rw [List.foldl_append, List.foldl_append, List.foldl_cons, stepElem_no_surv _ hs]

/-- Witness for C10: a record whose `appointment_date` is the empty
string changes nothing. -/
theorem c10_falsy_required_dropped_witness :
    processAll sampleSettings emptyHistory
        ([] ++
          Elem.edict { sampleRecord "2024-05-02" 3 with
            appointment_date := some (FieldVal.vStr "") } ::
            [Elem.edict (sampleRecord "2024-05-01" 12)]) =
      processAll sampleSettings emptyHistory
        ([] ++ [Elem.edict (sampleRecord "2024-05-01" 12)]) :=
  c10_falsy_required_dropped sampleSettings emptyHistory
    [] [Elem.edict (sampleRecord "2024-05-01" 12)]
    { sampleRecord "2024-05-02" 3 with appointment_date := some (FieldVal.vStr "") }
    (FieldVal.vStr "") ⟨Or.inr (Or.inr rfl), rfl⟩

/-- C6 counterexample: the appointment list inside the `PollResult`
emitted by `check_appointments` preserves listing order and is not
sorted — here a matching record dated 02.05.2024 precedes one dated
01.05.2024 and the emitted list keeps that order. -/
theorem c6_counterexample :
    ¬ List.Sorted aptLE
        (pollAppointments
          (checkAppointments sampleSettings emptyHistory "t"
            (JsonTop.jlist [Elem.edict (sampleRecord "2024-05-02" 3),
              Elem.edict (sampleRecord "2024-05-01" 4)])).2) := by
  decide

/-- C6 (amended): the cycle's emitted appointment list preserves listing
order; it is `handle_update` that sorts the list by ascending
appointment date (line 574) before the report is formatted, and that
sorted list is ordered by ascending date. -/
theorem c6_sorted_in_handle_update (st : Settings) (hist : ScanHistory) (now : String)
    (elems : List Elem) :
    List.Sorted aptLE
      (sortAppointments
        (pollAppointments (checkAppointments st hist now (JsonTop.jlist elems)).2)) :=
  List.sorted_insertionSort aptLE _

/-- C7: for every raw listing the emitted `api_last_checked` equals the
maximum of the parseable per-record `last_checked` instants over the
entire unfiltered listing, shifted to the fixed UTC+3 display offset;
elements with a missing or unparseable value are skipped without
aborting the cycle (the cycle still succeeds), and the value is absent
when no record has a parseable `last_checked`. -/
theorem c7_api_last_checked (st : Settings) (hist : ScanHistory) (now : String)
    (elems : List Elem) :
    ∃ res : PollResult,
      (checkAppointments st hist now (JsonTop.jlist elems)).2 = Except.ok res ∧
        res.api_last_checked = ((elems.filterMap elemTime).max?).map (· + 3 * 60 * 60) := by
  refine ⟨_, rfl, ?_⟩
  show apiLastChecked (JsonTop.jlist elems) = _
  cases elems with
  | nil => rfl
  | cons e rest =>
    simp only [apiLastChecked]
    rw [if_neg (by simp), latestUpdate_eq_max]

/-- C8: a successful cycle with a non-empty appointment list sends
exactly one message; with an empty list it sends exactly one message
consisting of the header and the no-appointments footer when
`send_all_updates` is set, and no message otherwise. -/
theorem c8_dispatch_policy (st : Settings) (r : PollResult) :
    (r.appointments ≠ [] → (handleUpdateMessages st r).length = 1) ∧
    (r.appointments = [] → st.send_all_updates = true →
      handleUpdateMessages st r = [statusHeader st r ++ noAppointmentsFooter]) ∧
    (r.appointments = [] → st.send_all_updates = false →
      handleUpdateMessages st r = []) := by
  refine ⟨?_, ?_, ?_⟩
  · intro h
    simp [handleUpdateMessages, h]
  · intro h hs
    simp [handleUpdateMessages, h, hs]
  · intro h hs
    simp [handleUpdateMessages, h, hs]

/-- Witness for C8: both empty-list branches and the non-empty branch at
concrete inputs. -/
theorem c8_dispatch_policy_witness :
    handleUpdateMessages { sampleSettings with send_all_updates := false }
        { current_time := "t", last_check := none, api_last_checked := none,
          appointments := [], error := none } = [] :=
  (c8_dispatch_policy { sampleSettings with send_all_updates := false }
    { current_time := "t", last_check := none, api_last_checked := none,
      appointments := [], error := none }).2.2 rfl rfl

/-- C2: if the persisted snapshot under key `k` holds
`people_looking = N` and the cycle's unique record touching `k` carries
`people_looking = M` with `M ≠ N`, the cycle emits for that key the
snapshot annotated with `people_looking_change = M - N`, and afterwards
the store holds that snapshot, whose count is `M`. -/
theorem c2_delta_and_store (st : Settings) (hist : ScanHistory)
    (pre post : List Elem) (r : RawRecord) (d : Date) (k : String)
    (prev : AppointmentInfo) (N M : Int)
    (hs : survInfo st r = some d)
    (hk : keyString r d = k)
    (hpre : ∀ e ∈ pre, touchesKey st e k = false)
    (hpost : ∀ e ∈ post, touchesKey st e k = false)
    (hprev : lookupA hist.appointments k = some prev)
    (hN : prev.people_looking = N)
    (hM : r.people_looking.getD 0 = M)
    (hne : M ≠ N) :
    { buildInfo r d with people_looking_change := some (M - N) } ∈
        (processAll st hist (pre ++ Elem.edict r :: post)).2 ∧
      lookupA (processAll st hist (pre ++ Elem.edict r :: post)).1.appointments k =
        some { buildInfo r d with people_looking_change := some (M - N) } ∧
      M = (buildInfo r d).people_looking := by
  subst hk hN hM
  unfold processAll
  rw [List.foldl_append, List.foldl_cons]
  have hl1 : lookupA (List.foldl (stepElem st) (hist, []) pre).1.appointments
      (keyString r d) = some prev := by
    rw [lookupA_foldl_untouched st pre _ hpre]
    exact hprev
  have hne' : prev.people_looking ≠ (buildInfo r d).people_looking := by
    intro he
    apply hne
    rw [he]
    rfl
  have hdiff : diffInfo (List.foldl (stepElem st) (hist, []) pre).1 r d =
      { buildInfo r d with
          people_looking_change :=
            some ((buildInfo r d).people_looking - prev.people_looking) } :=
    diffInfo_of_ne _ r d prev hl1 hne'
  refine ⟨?_, ?_, rfl⟩
  · apply mem_foldl_out
    rw [stepElem_surv _ hs, hdiff]
    exact List.mem_append_right _ (List.mem_singleton.mpr rfl)
  · rw [lookupA_foldl_untouched st post _ hpost, stepElem_surv _ hs, hdiff]
    dsimp only
    exact lookupA_insertA_self _ _ _

/-- Witness for C2: the stored count 12 moves to 20, the emitted and
stored snapshot carries the delta 8. -/
theorem c2_delta_and_store_witness :
    { buildInfo (sampleRecord "2024-05-01" 20) ⟨2024, 5, 1⟩ with
        people_looking_change := some (20 - 12) } ∈
        (processAll sampleSettings sampleHistory
          ([] ++ Elem.edict (sampleRecord "2024-05-01" 20) :: [])).2 ∧
      lookupA (processAll sampleSettings sampleHistory
            ([] ++ Elem.edict (sampleRecord "2024-05-01" 20) :: [])).1.appointments
          "Turkey_Germany_2024-05-01" =
        some { buildInfo (sampleRecord "2024-05-01" 20) ⟨2024, 5, 1⟩ with
          people_looking_change := some (20 - 12) } ∧
      (20 : Int) = (buildInfo (sampleRecord "2024-05-01" 20) ⟨2024, 5, 1⟩).people_looking :=
  c2_delta_and_store sampleSettings sampleHistory [] []
    (sampleRecord "2024-05-01" 20) ⟨2024, 5, 1⟩ "Turkey_Germany_2024-05-01"
    sampleStored 12 20 (by decide) (by decide) (by decide) (by decide)
    (by decide) rfl rfl (by decide)

/-- C3 counterexample: with the same raw listing run twice from an empty
history, the second cycle still annotates — two records share one
appointment key (same countries and date, counts 1 and 2), so even an
identical re-run flips the stored count back and forth and reports
deltas. -/
theorem c3_counterexample :
    ¬ (∀ i ∈ pollAppointments
          (checkAppointments sampleSettings
            (checkAppointments sampleSettings emptyHistory "t1"
              (JsonTop.jlist [Elem.edict (sampleRecord "2024-05-01" 1),
                Elem.edict (sampleRecord "2024-05-01" 2)])).1 "t2"
            (JsonTop.jlist [Elem.edict (sampleRecord "2024-05-01" 1),
              Elem.edict (sampleRecord "2024-05-01" 2)])).2,
        i.people_looking_change = none) := by
  decide

/-- C3 (amended): running a cycle twice on the identical raw listing
(with no other state change) yields a second-cycle output in which no
snapshot carries a `people_looking_change` annotation, provided the
listing's surviving records have pairwise-distinct appointment keys;
with duplicate keys within one listing the counts ping-pong and the
second cycle annotates (see the counterexample). -/
theorem c3_second_cycle_unannotated (st : Settings) (hist : ScanHistory)
    (now1 now2 : String) (elems : List Elem)
    (hnd : (cycleKeys st elems).Nodup) :
    ∀ i ∈ pollAppointments
        (checkAppointments st (checkAppointments st hist now1 (JsonTop.jlist elems)).1
          now2 (JsonTop.jlist elems)).2,
      i.people_looking_change = none := by
  intro i hi
  rw [checkAppointments_jlist, checkAppointments_jlist] at hi
  refine foldl_nochange st elems _ hnd ?_ ?_ i hi
  · intro j hj
    cases hj
  · intro r d hm hs
    exact foldl_writes_key st elems (hist, []) hnd r d hm hs

/-- Witness for C3 (amended): a two-record listing with distinct keys,
run twice; the second cycle's snapshots carry no annotation. -/
theorem c3_second_cycle_unannotated_witness :
    (cycleKeys sampleSettings [Elem.edict (sampleRecord "2024-05-01" 5),
        Elem.edict (sampleRecord "2024-05-02" 7)]).Nodup ∧
      ∀ i ∈ pollAppointments
          (checkAppointments sampleSettings
            (checkAppointments sampleSettings emptyHistory "t1"
              (JsonTop.jlist [Elem.edict (sampleRecord "2024-05-01" 5),
                Elem.edict (sampleRecord "2024-05-02" 7)])).1 "t2"
            (JsonTop.jlist [Elem.edict (sampleRecord "2024-05-01" 5),
              Elem.edict (sampleRecord "2024-05-02" 7)])).2,
        i.people_looking_change = none :=
  ⟨by decide,
    c3_second_cycle_unannotated sampleSettings emptyHistory "t1" "t2"
      [Elem.edict (sampleRecord "2024-05-01" 5), Elem.edict (sampleRecord "2024-05-02" 7)]
      (by decide)⟩

/-- C5 counterexample: a JSON object body — not a list — still yields a
success result with an empty appointment list: `for appointment in data`
iterates the object's keys, which are skipped as non-mappings, so no
transport-level error is raised. -/
theorem c5_counterexample :
    ∃ res : PollResult,
      (checkAppointments sampleSettings emptyHistory "t" (JsonTop.jobject ["visa"])).2 =
          Except.ok res ∧
        res.appointments = [] :=
  ⟨_, rfl, rfl⟩

/-- C5 (amended): a body that is not JSON, or decodes to a non-iterable
scalar (number, boolean or `null`), fails the cycle with an error result
and leaves the history untouched; but an iterable non-list body — a JSON
object or string — produces a normal success result whose appointment
list is empty, since its iteration elements are skipped as
non-mappings. -/
theorem c5_nonlist_body (st : Settings) (hist : ScanHistory) (now : String) :
    (∀ p : JsonTop,
      p = JsonTop.jnumber ∨ p = JsonTop.jbool ∨ p = JsonTop.jnull ∨ p = JsonTop.notJson →
        checkAppointments st hist now p = (hist, Except.error "exception")) ∧
    (∀ ks : List String, ∃ res : PollResult,
        (checkAppointments st hist now (JsonTop.jobject ks)).2 = Except.ok res ∧
          res.appointments = []) ∧
    (∀ s : String, ∃ res : PollResult,
        (checkAppointments st hist now (JsonTop.jstring s)).2 = Except.ok res ∧
          res.appointments = []) := by
  refine ⟨?_, ?_, ?_⟩
  · rintro p (rfl | rfl | rfl | rfl) <;> rfl
  · intro ks
    rw [checkAppointments_iter_others st hist now (JsonTop.jobject ks)
      (ks.map fun _ => Elem.other) rfl ?_]
    · exact ⟨_, rfl, rfl⟩
    · intro e he
      rcases List.mem_map.mp he with ⟨a, _, hfa⟩
      exact hfa.symm
  · intro s
    rw [checkAppointments_iter_others st hist now (JsonTop.jstring s)
      (s.data.map fun _ => Elem.other) rfl ?_]
    · exact ⟨_, rfl, rfl⟩
    · intro e he
      rcases List.mem_map.mp he with ⟨a, _, hfa⟩
      exact hfa.symm

/-- Witness for C5 (amended): a number body errors and leaves the
history untouched. -/
theorem c5_nonlist_body_witness :
    checkAppointments sampleSettings emptyHistory "t" JsonTop.jnumber =
      (emptyHistory, Except.error "exception") :=
  (c5_nonlist_body sampleSettings emptyHistory "t").1 JsonTop.jnumber (Or.inl rfl)

end VisaTracker
